import Mathlib

/-!
Verification of the authentication / rate-limiting gate of the jackpot_map
dashboard (`src/utils/auth.py`, `src/utils/ip_manager.py`,
`src/pages/user_management.py`, `src/pages/admin_panel.py`).

The persisted JSON dictionaries are modelled as association lists with
dictionary-style lookup and update; `time.time()` timestamps are modelled as
natural numbers (only order and addition of positive constants matter to the
code); the activity logs (`log_ip_activity` rows) are modelled by the list of
activity-type strings emitted, the other CSV columns being irrelevant to the
properties proved here.  Python exceptions escaping a function are modelled
with `Except Unit`.
-/

namespace JackpotMap

/-- One value of the `logs/rate_limits.json` mapping, as created by
`increment_failed_attempts` in `src/utils/auth.py`: `attempts` and
`window_end` are always present, `reset_time` only once a lockout has been
applied (the Python code reads it with `.get("reset_time", 0)`). -/
structure RLEntry where
  attempts : Nat
  window_end : Nat
  reset_time : Option Nat
  deriving DecidableEq, Repr

/-- The `rate_limits.json` dictionary: identity key (bare username or
`ip_<address>`) to entry. -/
def RateMap := List (String × RLEntry)

instance : DecidableEq RateMap := by
  unfold RateMap
  infer_instance

/-- Dictionary lookup (`rate_limits[key]` / `key in rate_limits`). -/
def findE : RateMap → String → Option RLEntry
  | [], _ => none
  | (k, v) :: rest, key => if key = k then some v else findE rest key

/-- Dictionary update `rate_limits[key] = v`. -/
def insertE (m : RateMap) (key : String) (v : RLEntry) : RateMap :=
  (key, v) :: m.filter (fun p => decide (p.1 ≠ key))

/-- The empty dictionary (fresh `rate_limits.json`, and the state after the
admin panel's "Clear All Rate Limits" button writes `{}`). -/
def emptyRL : RateMap := []

theorem findE_cons (k : String) (v : RLEntry) (rest : List (String × RLEntry))
    (key : String) :
    findE ((k, v) :: rest) key = if key = k then some v else findE rest key :=
  rfl

theorem findE_insertE_self (m : RateMap) (k : String) (v : RLEntry) :
    findE (insertE m k v) k = some v := by
  simp [insertE, findE]

theorem findE_filter_ne (m : RateMap) (k k' : String) (h : k' ≠ k) :
    findE (m.filter (fun p => decide (p.1 ≠ k))) k' = findE m k' := by
  induction m with
  | nil => rfl
  | cons p rest ih =>
    obtain ⟨pk, pv⟩ := p
    rcases eq_or_ne pk k with hp | hp
    · have hfil : List.filter (fun p => decide (p.1 ≠ k)) ((pk, pv) :: rest)
          = List.filter (fun p => decide (p.1 ≠ k)) rest := by
        rw [List.filter_cons]
        simp [hp]
      have h2 : ¬ k' = pk := fun hkk => h (hkk.trans hp)
      rw [hfil, ih, findE_cons, if_neg h2]
    · have hfil : List.filter (fun p => decide (p.1 ≠ k)) ((pk, pv) :: rest)
          = (pk, pv) :: List.filter (fun p => decide (p.1 ≠ k)) rest := by
        rw [List.filter_cons]
        simp [hp]
      rw [hfil, findE_cons, findE_cons, ih]

theorem findE_insertE_ne (m : RateMap) (k k' : String) (v : RLEntry)
    (h : k' ≠ k) : findE (insertE m k v) k' = findE m k' := by
  simp only [insertE, findE, if_neg h]
  exact findE_filter_ne m k k' h

/-- `entry.get("reset_time", 0)` for an identity key, with a missing entry
reading as 0 as well (a missing entry is never locked). -/
def resetTimeOf (m : RateMap) (k : String) : Nat :=
  match findE m k with
  | none => 0
  | some e => e.reset_time.getD 0

/-- Whether one identity key blocks the attempt in `check_rate_limit`
(`current_time < data.get("reset_time", 0)` for a present entry). -/
def entryLocked (m : RateMap) (k : String) (now : Nat) : Bool :=
  match findE m k with
  | none => false
  | some e => decide (now < e.reset_time.getD 0)

/-- `check_rate_limit(username, ip_address)` of `src/utils/auth.py`
(lines 137-172): `True` (attempt allowed) unless the username entry or the
`ip_<address>` entry is still inside its lockout. -/
def check_rate_limit (m : RateMap) (username ip : String) (now : Nat) : Bool :=
  !(entryLocked m username now) && !(entryLocked m ("ip_" ++ ip) now)

/-- The per-entry update performed by `increment_failed_attempts` for one
identity key: fresh window when absent or when `current_time > window_end`,
otherwise increment, applying the lockout (`reset_time := now + lockDur`)
when the incremented count reaches `threshold`.  The returned `Bool` records
whether the corresponding `rate_limited_*` activity row was logged. -/
def stepEntry (old : Option RLEntry) (now threshold lockDur : Nat) :
    RLEntry × Bool :=
  match old with
  | none => (⟨1, now + 300, none⟩, false)
  | some d =>
    if now > d.window_end then
      (⟨1, now + 300, none⟩, false)
    else
      let a := d.attempts + 1
      if a ≥ threshold then
        ({ d with attempts := a, reset_time := some (now + lockDur) }, true)
      else
        ({ d with attempts := a }, false)

/-- `increment_failed_attempts(username, ip_address)` of `src/utils/auth.py`
(lines 174-235): the username entry is updated first (threshold 5, 30-minute
lockout, logging `rate_limited_user`), then the `ip_<address>` entry on the
updated dictionary (threshold 10, 1-hour lockout, logging
`rate_limited_ip`).  Returns the saved dictionary and the activity rows
logged, in order. -/
def increment_failed_attempts (m : RateMap) (username ip : String)
    (now : Nat) : RateMap × List String :=
  let u := stepEntry (findE m username) now 5 1800
  let m1 := insertE m username u.1
  let ipk := "ip_" ++ ip
  let i := stepEntry (findE m1 ipk) now 10 3600
  let m2 := insertE m1 ipk i.1
  (m2, (if u.2 then ["rate_limited_user"] else []) ++
       (if i.2 then ["rate_limited_ip"] else []))

/-- Whether an identity key is an `ip_<address>` key, as the admin panel
classifies it (`key.startswith("ip_")` in `src/pages/admin_panel.py`). -/
def isIpKey (k : String) : Bool :=
  match k.data with
  | 'i' :: 'p' :: '_' :: _ => true
  | _ => false

theorem isIpKey_ip_append (a : String) : isIpKey ("ip_" ++ a) = true := by
  have h : ("ip_" ++ a).data = 'i' :: 'p' :: '_' :: a.data := by
    simp [String.data_append]
  simp [isIpKey, h]

theorem ne_of_isIpKey_ne {u k : String} (hu : isIpKey u = false)
    (hk : isIpKey k = true) : u ≠ k := by
  intro h; rw [h, hk] at hu; exact Bool.true_eq_false.mp hu

/-! ## IP policy (`src/utils/ip_manager.py`)

`is_ip_allowed` is imported library behaviour plus repository logic: the
repository logic (mode dispatch and the two list scans) is translated
directly; the `ipaddress.ip_address` / `ipaddress.ip_network` library calls
are modelled for IPv4 dotted and `addr/prefixlen` notation, a parse failure
standing for the `ValueError` the Python library raises (which the
repository code does not catch). -/

/-- Split a character list at every occurrence of `c` (the pieces between
separators, like Python `str.split`). -/
def splitOnChar (c : Char) : List Char → List (List Char)
  | [] => [[]]
  | x :: xs =>
    let r := splitOnChar c xs
    if x = c then [] :: r
    else
      match r with
      | [] => [[x]]
      | y :: ys => (x :: y) :: ys

/-- Value of a list of decimal digit characters. -/
def digitsToNat (l : List Char) : Nat :=
  l.foldl (fun n c => 10 * n + (c.toNat - 48)) 0

/-- One dotted-quad octet as `ipaddress.ip_address` accepts it: nonempty,
decimal digits only, no leading zero (except `"0"` itself), value ≤ 255. -/
def parseOctet (l : List Char) : Option Nat :=
  if l ≠ [] ∧ l.all Char.isDigit ∧ (l.head? ≠ some '0' ∨ l = ['0']) ∧
      digitsToNat l ≤ 255 then
    some (digitsToNat l)
  else none

/-- `ipaddress.ip_address` restricted to IPv4 dotted notation, yielding the
32-bit value; anything else (including IPv6, which none of the verified
configuration examples use) is a parse failure. -/
def parseIPv4 (s : String) : Option Nat :=
  match splitOnChar '.' s.data with
  | [a, b, c, d] =>
    match parseOctet a, parseOctet b, parseOctet c, parseOctet d with
    | some va, some vb, some vc, some vd =>
      some (((va * 256 + vb) * 256 + vc) * 256 + vd)
    | _, _, _, _ => none
  | _ => none

/-- A mask length `0 ≤ n ≤ 32` written in decimal digits. -/
def parseMaskLen (l : List Char) : Option Nat :=
  if l ≠ [] ∧ l.all Char.isDigit ∧ digitsToNat l ≤ 32 then
    some (digitsToNat l)
  else none

/-- `ipaddress.ip_network` on an `addr/prefixlen` string with the default
`strict=True`: the address part must be a valid IPv4 literal whose host bits
are all zero, otherwise `ValueError` (modelled as `none`). -/
def parseCIDR (s : String) : Option (Nat × Nat) :=
  match splitOnChar '/' s.data with
  | [a, p] =>
    match parseIPv4 ⟨a⟩, parseMaskLen p with
    | some addr, some len =>
      if addr % 2 ^ (32 - len) = 0 then some (addr, len) else none
    | _, _ => none
  | _ => none

/-- CIDR containment: `ip_address(ip) in ip_network(net/len)` — equality of
the `len` leading bits. -/
def inNetwork (ip net len : Nat) : Bool :=
  ip / 2 ^ (32 - len) = net / 2 ^ (32 - len)

/-- Python's `"/" in entry` test. -/
def hasSlash (s : String) : Bool :=
  s.data.contains '/'

/-- The `ip_config.json` record: `mode` plus the two entry lists. -/
structure IpConfig where
  mode : String
  allow_list : List String
  deny_list : List String
  deriving DecidableEq, Repr

/-- One `for entry in list:` scan of `is_ip_allowed`: an entry containing
`/` is checked by CIDR containment (raising on a malformed entry or an
unparseable `ip`), any other entry by exact string equality; `ok true` means
the loop returned (a match), `ok false` that it fell through. -/
def scanList (ip : String) : List String → Except Unit Bool
  | [] => .ok false
  | e :: rest =>
    if hasSlash e then
      match parseIPv4 ip, parseCIDR e with
      | some a, some np =>
        if inNetwork a np.1 np.2 then .ok true else scanList ip rest
      | _, _ => .error ()
    else if ip = e then .ok true
    else scanList ip rest

/-- `is_ip_allowed(ip_address)` of `src/utils/ip_manager.py` (lines 28-86),
with the already-loaded configuration passed explicitly: `"Unknown"` is
always allowed; then dispatch on `mode`, the `use_lists` case scanning the
deny list (match ⇒ blocked), then allowing everything if the allow list is
empty, else scanning the allow list; any other `mode` falls through to
`True`.  `error` models an uncaught `ValueError` from the `ipaddress`
library. -/
def is_ip_allowed (cfg : IpConfig) (ip : String) : Except Unit Bool :=
  if ip = "Unknown" then .ok true
  else if cfg.mode = "allow_all" then .ok true
  else if cfg.mode = "deny_all" then .ok false
  else if cfg.mode = "use_lists" then
    match scanList ip cfg.deny_list with
    | .error e => .error e
    | .ok true => .ok false
    | .ok false =>
      if cfg.allow_list.isEmpty then .ok true
      else
        match scanList ip cfg.allow_list with
        | .error e => .error e
        | .ok b => .ok b
  else .ok true

/-- Modelled from the spec's words: an entry matches an IP by "exact string
match or CIDR containment" — containment for a `/` entry, exact equality
otherwise (a malformed entry matches nothing). -/
def matchesSpec (ip entry : String) : Bool :=
  if hasSlash entry then
    match parseIPv4 ip, parseCIDR entry with
    | some a, some np => inNetwork a np.1 np.2
    | _, _ => false
  else ip == entry

/-- Modelled from the spec's words (`is_allowed`, §4.2): `"Unknown"` ⇒ true;
`allow_all` ⇒ true; `deny_all` ⇒ false; `use_lists` ⇒ false on a deny match,
else true on an empty allow list, else true iff some allow entry matches;
any unrecognized mode ⇒ true. -/
def ipAllowedSpec (cfg : IpConfig) (ip : String) : Bool :=
  if ip = "Unknown" then true
  else if cfg.mode = "allow_all" then true
  else if cfg.mode = "deny_all" then false
  else if cfg.mode = "use_lists" then
    if cfg.deny_list.any (matchesSpec ip) then false
    else if cfg.allow_list.isEmpty then true
    else cfg.allow_list.any (matchesSpec ip)
  else true

theorem scanList_eq_any (ip : String) (l : List String)
    (hw : ∀ e ∈ l, hasSlash e = true → (parseCIDR e).isSome)
    (hip : (parseIPv4 ip).isSome) :
    scanList ip l = .ok (l.any (matchesSpec ip)) := by
  induction l with
  | nil => rfl
  | cons e rest ih =>
    have hrest : ∀ e ∈ rest, hasSlash e = true → (parseCIDR e).isSome :=
      fun x hx => hw x (List.mem_cons_of_mem e hx)
    by_cases hs : hasSlash e = true
    · obtain ⟨np, hnp⟩ := Option.isSome_iff_exists.mp (hw e (List.mem_cons_self e rest) hs)
      obtain ⟨a, ha⟩ := Option.isSome_iff_exists.mp hip
      by_cases hin : inNetwork a np.1 np.2 = true
      · simp [scanList, matchesSpec, hs, ha, hnp, hin, List.any_cons]
      · simp only [Bool.not_eq_true] at hin
        simp [scanList, matchesSpec, hs, ha, hnp, hin, List.any_cons, ih hrest]
    · simp only [Bool.not_eq_true] at hs
      by_cases he : ip = e
      · simp [scanList, matchesSpec, hs, he, List.any_cons]
      · simp [scanList, matchesSpec, hs, he, List.any_cons, ih hrest]

/-! ## Credential store (`src/pages/user_management.py`) -/

/-- One value of the `credentials.json` mapping. -/
structure UserRec where
  password : String
  salt : String
  role : String
  deriving DecidableEq, Repr

/-- The `credentials.json` dictionary (username to record). -/
def Credentials := List (String × UserRec)

instance : DecidableEq Credentials := by
  unfold Credentials
  infer_instance

/-- Dictionary lookup (`credentials[username]` / `username in credentials`). -/
def findC : Credentials → String → Option UserRec
  | [], _ => none
  | (k, v) :: rest, key => if key = k then some v else findC rest key

/-- `del credentials[username]`. -/
def eraseC (c : Credentials) (key : String) : Credentials :=
  c.filter (fun p => decide (p.1 ≠ key))

/-- `credentials[username]["role"] = new_role`. -/
def setRole : Credentials → String → String → Credentials
  | [], _, _ => []
  | (k, v) :: rest, key, r =>
    if k = key then (k, { v with role := r }) :: setRole rest key r
    else (k, v) :: setRole rest key r

/-- `sum(1 for user, data in credentials.items() if data["role"] == "admin")`. -/
def admin_count (c : Credentials) : Nat :=
  (c.filter (fun p => decide (p.2.role = "admin"))).length

/-- `delete_user(username)` of `src/pages/user_management.py` (lines
166-184): refuse an absent username, refuse deleting an admin when at most
one admin remains, otherwise delete and save.  Returns the `(success,
message)` pair and the resulting store (unchanged on failure, the Python
function returning before mutating). -/
def delete_user (c : Credentials) (username : String) :
    (Bool × String) × Credentials :=
  match findC c username with
  | none => ((false, "Username does not exist."), c)
  | some r =>
    if r.role = "admin" ∧ admin_count c ≤ 1 then
      ((false, "Cannot delete the last admin account."), c)
    else
      ((true, "User deleted successfully."), eraseC c username)

/-- `change_role(username, new_role)` of `src/pages/user_management.py`
(lines 187-206): refuse an absent username, refuse demoting an admin when at
most one admin remains, otherwise update the role and save. -/
def change_role (c : Credentials) (username new_role : String) :
    (Bool × String) × Credentials :=
  match findC c username with
  | none => ((false, "Username does not exist."), c)
  | some r =>
    if r.role = "admin" ∧ new_role ≠ "admin" ∧ admin_count c ≤ 1 then
      ((false, "Cannot change role for the last admin account."), c)
    else
      ((true, "User role changed successfully."), setRole c username new_role)

/-! ## Session identity and the gate (`src/utils/auth.py`) -/

/-- The session-identity keys of `st.session_state`, after
`initialize_session_state` has ensured they exist. -/
structure Session where
  authenticated : Bool
  username : Option String
  user_role : Option String
  login_time : Option String
  ip_address : Option String
  logout_requested : Bool
  deriving DecidableEq, Repr

/-- `logout()` of `src/utils/auth.py` (lines 279-289): log the `logout`
activity row, then set `authenticated = False` and `username`, `user_role`,
`ip_address` to `None`, and raise the `logout_requested` flag.  Returns the
new session and the activity rows logged. -/
def logout (s : Session) : Session × List String :=
  ({ s with authenticated := false, username := none, user_role := none,
            ip_address := none, logout_requested := true },
   ["logout"])

/-- Outcome of one `password_entered` callback. -/
inductive AuthResult where
  | authenticated
  | denied (reason : String)
  deriving DecidableEq, Repr

/-- `password_entered()` of `src/utils/auth.py` (lines 82-135), with the
file-backed stores passed explicitly and the resolved client IP as an input
(`get_client_ip` is an external collaborator).  `hashFn password salt`
stands for the hex digest of `hashlib.pbkdf2_hmac('sha256', password, salt,
100000)`; `hmac.compare_digest` is string equality.  In order: the IP-policy
check (denial logs `blocked_ip` and returns before any rate-limit access),
the rate-limit check (denial logs `rate_limited` and returns before any
counter update), then credential lookup and hash comparison; a failure logs
`failed_login` and calls `increment_failed_attempts`.  Returns the result,
the rate-limit map as saved, and the `log_ip_activity` rows, in order;
`error` models an uncaught `ValueError` escaping `is_ip_allowed`. -/
def password_entered (hashFn : String → String → String) (creds : Credentials)
    (cfg : IpConfig) (m : RateMap) (username password ip : String)
    (now : Nat) : Except Unit (AuthResult × RateMap × List String) :=
  match is_ip_allowed cfg ip with
  | .error e => .error e
  | .ok false => .ok (.denied "ip_blocked", m, ["blocked_ip"])
  | .ok true =>
    if check_rate_limit m username ip now = false then
      .ok (.denied "rate_limited", m, ["rate_limited"])
    else
      match findC creds username with
      | some r =>
        if hashFn password r.salt = r.password then
          .ok (.authenticated, m, ["successful_login"])
        else
          let step := increment_failed_attempts m username ip now
          .ok (.denied "bad_credentials", step.1, "failed_login" :: step.2)
      | none =>
        let step := increment_failed_attempts m username ip now
        .ok (.denied "bad_credentials", step.1, "failed_login" :: step.2)

/-! ## Helper lemmas -/

theorem entryLocked_iff (m : RateMap) (k : String) (now : Nat) :
    entryLocked m k now = true ↔ now < resetTimeOf m k := by
  unfold entryLocked resetTimeOf
  cases findE m k <;> simp

theorem check_rate_limit_iff (m : RateMap) (u ip : String) (now : Nat) :
    check_rate_limit m u ip now = true ↔
      (¬ now < resetTimeOf m u ∧ ¬ now < resetTimeOf m ("ip_" ++ ip)) := by
  have h1 := entryLocked_iff m u now
  have h2 := entryLocked_iff m ("ip_" ++ ip) now
  cases hu : entryLocked m u now <;>
    cases hi : entryLocked m ("ip_" ++ ip) now <;>
      simp [hu, hi] at h1 h2 <;>
        simp [check_rate_limit, hu, hi, h1, h2]

theorem findE_increment_username (m : RateMap) (username ip : String)
    (now : Nat) (hne : username ≠ "ip_" ++ ip) :
    findE (increment_failed_attempts m username ip now).1 username
      = some (stepEntry (findE m username) now 5 1800).1 := by
  unfold increment_failed_attempts
  rw [findE_insertE_ne _ _ _ _ hne, findE_insertE_self]

theorem findE_increment_ip (m : RateMap) (username ip : String)
    (now : Nat) (hne : username ≠ "ip_" ++ ip) :
    findE (increment_failed_attempts m username ip now).1 ("ip_" ++ ip)
      = some (stepEntry (findE m ("ip_" ++ ip)) now 10 3600).1 := by
  unfold increment_failed_attempts
  rw [findE_insertE_self, findE_insertE_ne _ _ _ _ (Ne.symm hne)]

theorem findE_increment_other (m : RateMap) (username ip k : String)
    (now : Nat) (hk1 : k ≠ username) (hk2 : k ≠ "ip_" ++ ip) :
    findE (increment_failed_attempts m username ip now).1 k = findE m k := by
  unfold increment_failed_attempts
  rw [findE_insertE_ne _ _ _ _ hk2, findE_insertE_ne _ _ _ _ hk1]

theorem stepEntry_of_window_passed (d : RLEntry) (now threshold lockDur : Nat)
    (h : now > d.window_end) :
    stepEntry (some d) now threshold lockDur = (⟨1, now + 300, none⟩, false) := by
  simp [stepEntry, h]

theorem stepEntry_of_threshold (d : RLEntry) (now threshold lockDur : Nat)
    (hw : ¬ now > d.window_end) (ht : threshold ≤ d.attempts + 1) :
    stepEntry (some d) now threshold lockDur =
      ({ d with attempts := d.attempts + 1,
                reset_time := some (now + lockDur) }, true) := by
  simp [stepEntry, hw, ht]

/-! ## Claims -/

/-- C1: `increment_failed_attempts` updates both the bare-username entry and
the `ip_<address>` entry, each from its own previous value with its own
threshold; within the current window, a username count reaching at least 5
sets that entry's `reset_time` to `now + 1800` and logs `rate_limited_user`,
and an IP count reaching at least 10 sets that entry's `reset_time` to
`now + 3600` and logs `rate_limited_ip`.  (The two identity keys are
distinct, the username being bare rather than `ip_`-prefixed.) -/
theorem C1_record_failure_updates_both (m : RateMap) (username ip : String)
    (now : Nat) (hne : username ≠ "ip_" ++ ip) :
    (findE (increment_failed_attempts m username ip now).1 username
        = some (stepEntry (findE m username) now 5 1800).1 ∧
      findE (increment_failed_attempts m username ip now).1 ("ip_" ++ ip)
        = some (stepEntry (findE m ("ip_" ++ ip)) now 10 3600).1) ∧
    (∀ e, findE m username = some e → now ≤ e.window_end →
      5 ≤ e.attempts + 1 →
      findE (increment_failed_attempts m username ip now).1 username
          = some { e with attempts := e.attempts + 1,
                          reset_time := some (now + 1800) } ∧
        "rate_limited_user" ∈ (increment_failed_attempts m username ip now).2) ∧
    (∀ e, findE m ("ip_" ++ ip) = some e → now ≤ e.window_end →
      10 ≤ e.attempts + 1 →
      findE (increment_failed_attempts m username ip now).1 ("ip_" ++ ip)
          = some { e with attempts := e.attempts + 1,
                          reset_time := some (now + 3600) } ∧
        "rate_limited_ip" ∈ (increment_failed_attempts m username ip now).2) := by
  refine ⟨⟨findE_increment_username m username ip now hne,
           findE_increment_ip m username ip now hne⟩, ?_, ?_⟩
  · intro e he hw ht
    have hw' : ¬ now > e.window_end := by omega
    constructor
    · rw [findE_increment_username m username ip now hne, he,
        stepEntry_of_threshold e now 5 1800 hw' ht]
    · unfold increment_failed_attempts
      rw [he, stepEntry_of_threshold e now 5 1800 hw' ht]
      simp
  · intro e he hw ht
    have hw' : ¬ now > e.window_end := by omega
    have hm1 : findE (insertE m username
        (stepEntry (findE m username) now 5 1800).1) ("ip_" ++ ip)
        = findE m ("ip_" ++ ip) :=
      findE_insertE_ne _ _ _ _ (Ne.symm hne)
    constructor
    · rw [findE_increment_ip m username ip now hne, he,
        stepEntry_of_threshold e now 10 3600 hw' ht]
    · simp only [increment_failed_attempts]
      rw [hm1, he, stepEntry_of_threshold e now 10 3600 hw' ht]
      simp

/-- C2: on a policy whose `/`-entries are all well-formed CIDR ranges and an
IP that is `"Unknown"` or a valid IPv4 literal, `is_ip_allowed` returns
without raising and agrees with the spec's case analysis (`ipAllowedSpec`):
`"Unknown"` ⇒ allowed; `allow_all` ⇒ allowed; `deny_all` ⇒ blocked;
`use_lists` ⇒ blocked on a deny match, else allowed when the allow list is
empty, else allowed iff some allow entry matches; any unrecognized mode ⇒
allowed. -/
theorem C2_is_ip_allowed_matches_spec (cfg : IpConfig) (ip : String)
    (hd : ∀ e ∈ cfg.deny_list, hasSlash e = true → (parseCIDR e).isSome)
    (ha : ∀ e ∈ cfg.allow_list, hasSlash e = true → (parseCIDR e).isSome)
    (hip : ip = "Unknown" ∨ (parseIPv4 ip).isSome) :
    is_ip_allowed cfg ip = .ok (ipAllowedSpec cfg ip) := by
  by_cases hunk : ip = "Unknown"
  · simp [is_ip_allowed, ipAllowedSpec, hunk]
  · have hip' : (parseIPv4 ip).isSome := hip.resolve_left hunk
    by_cases h1 : cfg.mode = "allow_all"
    · simp [is_ip_allowed, ipAllowedSpec, hunk, h1]
    by_cases h2 : cfg.mode = "deny_all"
    · simp [is_ip_allowed, ipAllowedSpec, hunk, h1, h2]
    by_cases h3 : cfg.mode = "use_lists"
    · simp only [is_ip_allowed, ipAllowedSpec, if_neg hunk, if_neg h1,
        if_neg h2, if_pos h3]
      rw [scanList_eq_any ip cfg.deny_list hd hip']
      by_cases hda : cfg.deny_list.any (matchesSpec ip) = true
      · simp [hda]
      · simp only [Bool.not_eq_true] at hda
        by_cases hae : cfg.allow_list.isEmpty
        · simp [hda, hae]
        · simp [hda, hae, scanList_eq_any ip cfg.allow_list ha hip']
    · simp [is_ip_allowed, ipAllowedSpec, hunk, h1, h2, h3]

/-- C3: `check_rate_limit` allows an attempt exactly when the current time
is not strictly below either identity's `reset_time` (a missing entry or
missing `reset_time` reading as 0); and an attempt made while the username
or the IP identity is locked — the IP policy permitting, so that the rate
check is reached — is denied as rate-limited with the rate-limit map saved
back unchanged: no attempts counter moves. -/
theorem C3_locked_attempt_denied_unchanged (hashFn : String → String → String)
    (creds : Credentials) (cfg : IpConfig) (m : RateMap)
    (username password ip : String) (now : Nat)
    (hallow : is_ip_allowed cfg ip = .ok true)
    (hlocked : entryLocked m username now = true ∨
      entryLocked m ("ip_" ++ ip) now = true) :
    (∀ (m' : RateMap) (u i : String) (t : Nat),
      check_rate_limit m' u i t = true ↔
        (¬ t < resetTimeOf m' u ∧ ¬ t < resetTimeOf m' ("ip_" ++ i))) ∧
    password_entered hashFn creds cfg m username password ip now =
      .ok (.denied "rate_limited", m, ["rate_limited"]) := by
  refine ⟨check_rate_limit_iff, ?_⟩
  have hcheck : check_rate_limit m username ip now = false := by
    rcases hlocked with h | h <;> simp [check_rate_limit, h]
  unfold password_entered
  rw [hallow]
  simp [hcheck]

/-- C4: a failure recorded strictly after an entry's `window_end` replaces
that entry by a fresh one with `attempts = 1` and `window_end = now + 300`
(for the username entry and the IP entry alike); and lockedness is governed
by the `reset_time` field alone: an identity is locked iff the current time
is strictly below its `reset_time` (missing read as 0), independent of
`attempts` and `window_end`. -/
theorem C4_window_reset_and_lock_independent (m : RateMap)
    (username ip : String) (now : Nat) (hne : username ≠ "ip_" ++ ip) :
    (∀ e, findE m username = some e → now > e.window_end →
      findE (increment_failed_attempts m username ip now).1 username
        = some ⟨1, now + 300, none⟩) ∧
    (∀ e, findE m ("ip_" ++ ip) = some e → now > e.window_end →
      findE (increment_failed_attempts m username ip now).1 ("ip_" ++ ip)
        = some ⟨1, now + 300, none⟩) ∧
    (∀ (m' : RateMap) (k : String) (t : Nat),
      entryLocked m' k t = true ↔ t < resetTimeOf m' k) := by
  refine ⟨?_, ?_, entryLocked_iff⟩
  · intro e he hw
    rw [findE_increment_username m username ip now hne, he,
      stepEntry_of_window_passed e now 5 1800 hw]
  · intro e he hw
    rw [findE_increment_ip m username ip now hne, he,
      stepEntry_of_window_passed e now 10 3600 hw]

/-- C5: on a store whose only admin is `u` (`admin_count = 1`),
`delete_user u` fails with the last-admin protection message
("LastAdminProtected") and returns the store unchanged; `change_role u ρ`
for any `ρ ≠ "admin"` fails the same way, store unchanged; and both
operations on an absent username fail with "Username does not exist."
("NotFound"), store unchanged. -/
theorem C5_last_admin_protected (c : Credentials) (u : String) (r : UserRec)
    (hu : findC c u = some r) (hadmin : r.role = "admin")
    (hcount : admin_count c = 1) :
    delete_user c u = ((false, "Cannot delete the last admin account."), c) ∧
    (∀ ρ, ρ ≠ "admin" →
      change_role c u ρ =
        ((false, "Cannot change role for the last admin account."), c)) ∧
    (∀ v, findC c v = none →
      delete_user c v = ((false, "Username does not exist."), c) ∧
      ∀ ρ, change_role c v ρ = ((false, "Username does not exist."), c)) := by
  refine ⟨?_, ?_, ?_⟩
  · unfold delete_user
    rw [hu]
    simp [hadmin, hcount]
  · intro ρ hρ
    unfold change_role
    rw [hu]
    simp [hadmin, hρ, hcount]
  · intro v hv
    constructor
    · unfold delete_user
      rw [hv]
    · intro ρ
      unfold change_role
      rw [hv]

/-- C6: when the IP policy rejects the caller's IP (in particular under
`deny_all` for any resolvable IP), `password_entered` logs `blocked_ip` and
denies, with the rate-limit map returned unchanged and the outcome
independent of the submitted credentials and of the rate-limit state: the
policy check is evaluated strictly before rate limiting and credential
verification. -/
theorem C6_ip_block_before_rate_limit (hashFn : String → String → String)
    (creds : Credentials) (cfg : IpConfig) (m : RateMap)
    (username password ip : String) (now : Nat)
    (hdeny : is_ip_allowed cfg ip = .ok false) :
    password_entered hashFn creds cfg m username password ip now =
      .ok (.denied "ip_blocked", m, ["blocked_ip"]) := by
  unfold password_entered
  rw [hdeny]

/-- C7: the code, as written, crashes on a malformed `/`-entry: with
`mode = use_lists` and deny list `["not-an-ip/24"]`, evaluating the policy
for IP `1.2.3.4` raises (`ipaddress.ip_network("not-an-ip/24")` raises
`ValueError`, uncaught), instead of skipping the entry and returning a
boolean as the spec requires. -/
theorem C7_malformed_entry_crashes :
    is_ip_allowed ⟨"use_lists", [], ["not-an-ip/24"]⟩ "1.2.3.4"
      = .error () := rfl

/-- C8 counterexample: a failed attempt whose caller IP resolved to
`"Unknown"` does accrue penalty state against the `ip_Unknown` identity —
starting from the empty map, `increment_failed_attempts` creates an
`ip_Unknown` entry, refuting "no penalty state is accrued against the
Unknown identity". -/
theorem C8_counterexample :
    ¬ findE (increment_failed_attempts emptyRL "alice" "Unknown" 1000).1
        "ip_Unknown" = none := by
  decide

/-- C8 amended: the IP-policy check always allows IP `"Unknown"`, but the
gate still tracks failures under the shared `ip_Unknown` identity: every
recorded failure with caller IP `"Unknown"` leaves an `ip_Unknown` entry in
the rate-limit map (so Unknown-IP logins are rate-limit penalized like any
other IP key). -/
theorem C8_unknown_allowed_but_penalized :
    (∀ cfg : IpConfig, is_ip_allowed cfg "Unknown" = .ok true) ∧
    (∀ (m : RateMap) (u : String) (now : Nat),
      (findE (increment_failed_attempts m u "Unknown" now).1
        "ip_Unknown").isSome = true) := by
  constructor
  · intro cfg
    simp [is_ip_allowed]
  · intro m u now
    have hkey : ("ip_" ++ "Unknown" : String) = "ip_Unknown" := rfl
    unfold increment_failed_attempts
    rw [hkey] at *
    simp only [hkey, findE_insertE_self, Option.isSome_some]

/-- C9 counterexample: `logout` does not clear `login_time` — on a session
whose `login_time` is set, the field survives logout, refuting "clears all
session identity fields — authenticated, username, user_role, login_time,
and ip_address". -/
theorem C9_counterexample :
    ¬ (logout ⟨true, some "alice", some "admin",
        some "2026-01-01 09:00:00", some "1.2.3.4", false⟩).1.login_time
      = none := by
  decide

/-- C9 amended: `logout` logs a `logout` activity record and clears
`authenticated`, `username`, `user_role` and `ip_address` (also raising the
`logout_requested` flag), leaving the session unauthenticated; `login_time`
is left unchanged. -/
theorem C9_logout_clears_most_fields (s : Session) :
    (logout s).2 = ["logout"] ∧
    (logout s).1.authenticated = false ∧
    (logout s).1.username = none ∧
    (logout s).1.user_role = none ∧
    (logout s).1.ip_address = none ∧
    (logout s).1.logout_requested = true ∧
    (logout s).1.login_time = s.login_time := by
  refine ⟨rfl, rfl, rfl, rfl, rfl, rfl, rfl⟩

/-! ## Reachable rate-limit states (for C10) -/

/-- Rate-limit maps reachable through the gate's own operations at a
nondecreasing clock: the empty map (fresh file, or the admin panel's "Clear
All Rate Limits" writing `{}`), and the result of
`increment_failed_attempts` for an attempt that `check_rate_limit` let
through at the same instant.  Usernames never carry the reserved `ip_`
prefix. -/
inductive Reach : RateMap → Nat → Prop where
  | init (t : Nat) : Reach emptyRL t
  | clear {m : RateMap} {t : Nat} (t' : Nat) (hr : Reach m t) (ht : t ≤ t') :
      Reach emptyRL t'
  | fail {m : RateMap} {t : Nat} (u ip : String) (t' : Nat) (hr : Reach m t)
      (ht : t ≤ t') (hu : isIpKey u = false)
      (hc : check_rate_limit m u ip t' = true) :
      Reach (increment_failed_attempts m u ip t').1 t'

/-- The strengthened per-entry invariant at clock `t` for an identity with
attempt threshold `bound`: the count never exceeds the threshold, the window
never extends more than 300s past the clock, and an entry at the threshold
is locked past its own window. -/
def goodEntry (bound t : Nat) (e : RLEntry) : Prop :=
  e.attempts ≤ bound ∧ e.window_end ≤ t + 300 ∧
  (e.attempts = bound → ∃ r, e.reset_time = some r ∧ e.window_end < r)

/-- The attempt threshold applying to an identity key: 10 for an
`ip_`-prefixed key, 5 for a bare username. -/
def boundFor (k : String) : Nat :=
  if isIpKey k then 10 else 5

theorem boundFor_of_ip {k : String} (h : isIpKey k = true) : boundFor k = 10 := by
  simp [boundFor, h]

theorem boundFor_of_user {k : String} (h : isIpKey k = false) : boundFor k = 5 := by
  simp [boundFor, h]

/-- The map-wide invariant: every `ip_`-prefixed entry satisfies the bound
10, every other entry the bound 5. -/
def InvRL (m : RateMap) (t : Nat) : Prop :=
  ∀ k e, findE m k = some e → goodEntry (boundFor k) t e

theorem goodEntry_mono {bound t t' : Nat} {e : RLEntry} (h : goodEntry bound t e)
    (ht : t ≤ t') : goodEntry bound t' e :=
  ⟨h.1, le_trans h.2.1 (by omega), h.2.2⟩

theorem entryLocked_eq_false {m : RateMap} {k : String} {now : Nat}
    (h : entryLocked m k now = false) :
    ∀ e, findE m k = some e → ¬ now < e.reset_time.getD 0 := by
  intro e he
  unfold entryLocked at h
  rw [he] at h
  simpa using h

theorem stepEntry_below_threshold (d : RLEntry) (now threshold lockDur : Nat)
    (hw : ¬ now > d.window_end) (ht : ¬ threshold ≤ d.attempts + 1) :
    stepEntry (some d) now threshold lockDur =
      ({ d with attempts := d.attempts + 1 }, false) := by
  simp [stepEntry, hw, ht]

theorem stepEntry_good {old : Option RLEntry} {bound t t' lockDur : Nat}
    (hb : 2 ≤ bound) (hlock : 300 < lockDur)
    (hold : ∀ e, old = some e → goodEntry bound t e)
    (ht : t ≤ t')
    (hunlocked : ∀ e, old = some e → ¬ t' < e.reset_time.getD 0) :
    goodEntry bound t' (stepEntry old t' bound lockDur).1 := by
  match old with
  | none =>
    refine ⟨?_, ?_, ?_⟩
    · show 1 ≤ bound
      omega
    · show t' + 300 ≤ t' + 300
      omega
    · intro hcontra
      have h1 : (1 : Nat) = bound := hcontra
      omega
  | some d =>
    by_cases hw : t' > d.window_end
    · rw [stepEntry_of_window_passed d t' bound lockDur hw]
      refine ⟨?_, ?_, ?_⟩
      · show 1 ≤ bound
        omega
      · show t' + 300 ≤ t' + 300
        omega
      · intro hcontra
        have h1 : (1 : Nat) = bound := hcontra
        omega
    · have hgood := hold d rfl
      have hwt : d.window_end ≤ t + 300 := hgood.2.1
      have hlt : d.attempts < bound := by
        rcases Nat.lt_or_ge d.attempts bound with h | h
        · exact h
        · exfalso
          have heq : d.attempts = bound := le_antisymm hgood.1 h
          obtain ⟨r, hr, hwr⟩ := hgood.2.2 heq
          have hnl := hunlocked d rfl
          rw [hr] at hnl
          simp only [Option.getD_some] at hnl
          omega
      by_cases hth : bound ≤ d.attempts + 1
      · rw [stepEntry_of_threshold d t' bound lockDur hw hth]
        refine ⟨?_, ?_, ?_⟩
        · show d.attempts + 1 ≤ bound
          omega
        · show d.window_end ≤ t' + 300
          omega
        · intro _
          refine ⟨t' + lockDur, rfl, ?_⟩
          show d.window_end < t' + lockDur
          omega
      · rw [stepEntry_below_threshold d t' bound lockDur hw hth]
        refine ⟨?_, ?_, ?_⟩
        · show d.attempts + 1 ≤ bound
          omega
        · show d.window_end ≤ t' + 300
          omega
        · intro hcontra
          have h1 : d.attempts + 1 = bound := hcontra
          omega

theorem reach_inv {m : RateMap} {t : Nat} (h : Reach m t) : InvRL m t := by
  induction h with
  | init t =>
    intro k e he
    cases he
  | clear t' hr ht ih =>
    intro k e he
    cases he
  | fail u ip t' hr ht hu hc ih =>
    rename_i m0 t0
    intro k e he
    have hipk : isIpKey ("ip_" ++ ip) = true := isIpKey_ip_append ip
    have hne : u ≠ "ip_" ++ ip := ne_of_isIpKey_ne hu hipk
    have hcheck := (check_rate_limit_iff m0 u ip t').mp hc
    have hulock : entryLocked m0 u t' = false := by
      cases hl : entryLocked m0 u t'
      · rfl
      · exact absurd ((entryLocked_iff m0 u t').mp hl) hcheck.1
    have hilock : entryLocked m0 ("ip_" ++ ip) t' = false := by
      cases hl : entryLocked m0 ("ip_" ++ ip) t'
      · rfl
      · exact absurd ((entryLocked_iff m0 ("ip_" ++ ip) t').mp hl) hcheck.2
    by_cases hk2 : k = "ip_" ++ ip
    · subst hk2
      rw [findE_increment_ip m0 u ip t' hne] at he
      injection he with he
      rw [← he, boundFor_of_ip hipk]
      refine stepEntry_good (by omega) (by omega) ?_ ht ?_
      · intro d hd
        have hig := ih ("ip_" ++ ip) d hd
        rwa [boundFor_of_ip hipk] at hig
      · exact entryLocked_eq_false hilock
    · by_cases hk1 : k = u
      · subst hk1
        rw [findE_increment_username m0 k ip t' hne] at he
        injection he with he
        rw [← he, boundFor_of_user hu]
        refine stepEntry_good (by omega) (by omega) ?_ ht ?_
        · intro d hd
          have hig := ih k d hd
          rwa [boundFor_of_user hu] at hig
        · exact entryLocked_eq_false hulock
      · rw [findE_increment_other m0 u ip k t' hk1 hk2] at he
        exact goodEntry_mono (ih k e he) ht

theorem stepEntry_reset_of_attempts_eq {old : Option RLEntry}
    {bound t' lockDur : Nat} (hb : 2 ≤ bound)
    (h : (stepEntry old t' bound lockDur).1.attempts = bound) :
    (stepEntry old t' bound lockDur).1.reset_time = some (t' + lockDur) := by
  match old with
  | none =>
    exfalso
    have h1 : (1 : Nat) = bound := h
    omega
  | some d =>
    by_cases hw : t' > d.window_end
    · exfalso
      rw [stepEntry_of_window_passed d t' bound lockDur hw] at h
      have h1 : (1 : Nat) = bound := h
      omega
    · by_cases hth : bound ≤ d.attempts + 1
      · rw [stepEntry_of_threshold d t' bound lockDur hw hth]
      · exfalso
        rw [stepEntry_below_threshold d t' bound lockDur hw hth] at h
        have h1 : d.attempts + 1 = bound := h
        omega

/-- C10: in every rate-limit state reachable from the empty map through the
gate's own operations (a `check_rate_limit` pass before each
`increment_failed_attempts` at the same nondecreasing clock, plus the admin
clear-all), with usernames never `ip_`-prefixed: a bare-username entry's
`attempts` never exceeds 5 and an `ip_` entry's never exceeds 10, every
entry at its threshold carries a `reset_time`, and the call of
`increment_failed_attempts` in which a count reaches its threshold is the
one that sets that entry's `reset_time` (`now + 1800` for the username,
`now + 3600` for the IP). -/
theorem C10_reachable_attempts_bounded {m : RateMap} {t : Nat}
    (h : Reach m t) :
    (∀ k e, findE m k = some e →
      (isIpKey k = false → e.attempts ≤ 5 ∧
        (e.attempts = 5 → e.reset_time.isSome = true)) ∧
      (isIpKey k = true → e.attempts ≤ 10 ∧
        (e.attempts = 10 → e.reset_time.isSome = true))) ∧
    (∀ (u ip : String) (t' : Nat) (e' : RLEntry), u ≠ "ip_" ++ ip →
      findE (increment_failed_attempts m u ip t').1 u = some e' →
      e'.attempts = 5 → e'.reset_time = some (t' + 1800)) ∧
    (∀ (u ip : String) (t' : Nat) (e' : RLEntry), u ≠ "ip_" ++ ip →
      findE (increment_failed_attempts m u ip t').1 ("ip_" ++ ip) = some e' →
      e'.attempts = 10 → e'.reset_time = some (t' + 3600)) := by
  have hinv := reach_inv h
  refine ⟨?_, ?_, ?_⟩
  · intro k e he
    have hg := hinv k e he
    constructor
    · intro hk
      rw [boundFor_of_user hk] at hg
      refine ⟨hg.1, fun h5 => ?_⟩
      obtain ⟨r, hr, _⟩ := hg.2.2 h5
      rw [hr]
      rfl
    · intro hk
      rw [boundFor_of_ip hk] at hg
      refine ⟨hg.1, fun h10 => ?_⟩
      obtain ⟨r, hr, _⟩ := hg.2.2 h10
      rw [hr]
      rfl
  · intro u ip t' e' hne he' hatt
    rw [findE_increment_username m u ip t' hne] at he'
    injection he' with he'
    rw [← he'] at hatt ⊢
    exact stepEntry_reset_of_attempts_eq (by omega) hatt
  · intro u ip t' e' hne he' hatt
    rw [findE_increment_ip m u ip t' hne] at he'
    injection he' with he'
    rw [← he'] at hatt ⊢
    exact stepEntry_reset_of_attempts_eq (by omega) hatt

/-! ## Witnesses -/

theorem C1_witness :
    let m : RateMap := [("alice", ⟨4, 400, none⟩), ("ip_9.9.9.9", ⟨9, 400, none⟩)]
    ("alice" : String) ≠ "ip_" ++ "9.9.9.9" ∧
    ((findE (increment_failed_attempts m "alice" "9.9.9.9" 350).1 "alice"
        = some (stepEntry (findE m "alice") 350 5 1800).1 ∧
      findE (increment_failed_attempts m "alice" "9.9.9.9" 350).1 ("ip_" ++ "9.9.9.9")
        = some (stepEntry (findE m ("ip_" ++ "9.9.9.9")) 350 10 3600).1) ∧
    (∀ e, findE m "alice" = some e → 350 ≤ e.window_end →
      5 ≤ e.attempts + 1 →
      findE (increment_failed_attempts m "alice" "9.9.9.9" 350).1 "alice"
          = some { e with attempts := e.attempts + 1,
                          reset_time := some (350 + 1800) } ∧
        "rate_limited_user" ∈ (increment_failed_attempts m "alice" "9.9.9.9" 350).2) ∧
    (∀ e, findE m ("ip_" ++ "9.9.9.9") = some e → 350 ≤ e.window_end →
      10 ≤ e.attempts + 1 →
      findE (increment_failed_attempts m "alice" "9.9.9.9" 350).1 ("ip_" ++ "9.9.9.9")
          = some { e with attempts := e.attempts + 1,
                          reset_time := some (350 + 3600) } ∧
        "rate_limited_ip" ∈ (increment_failed_attempts m "alice" "9.9.9.9" 350).2)) := by
  intro m
  exact ⟨by decide, C1_record_failure_updates_both m "alice" "9.9.9.9" 350 (by decide)⟩

theorem C2_witness :
    let cfg : IpConfig := ⟨"use_lists", ["1.2.3.4"], ["10.0.0.0/8"]⟩
    (∀ e ∈ cfg.deny_list, hasSlash e = true → (parseCIDR e).isSome) ∧
    (∀ e ∈ cfg.allow_list, hasSlash e = true → (parseCIDR e).isSome) ∧
    (("1.2.3.4" : String) = "Unknown" ∨ (parseIPv4 "1.2.3.4").isSome) ∧
    is_ip_allowed cfg "1.2.3.4" = .ok (ipAllowedSpec cfg "1.2.3.4") := by
  intro cfg
  exact ⟨by decide, by decide, by decide,
    C2_is_ip_allowed_matches_spec cfg "1.2.3.4" (by decide) (by decide) (by decide)⟩

theorem C3_witness :
    let m : RateMap := [("alice", ⟨5, 400, some 2000⟩)]
    let cfg : IpConfig := ⟨"allow_all", [], []⟩
    is_ip_allowed cfg "1.1.1.1" = .ok true ∧
    entryLocked m "alice" 1500 = true ∧
    ((∀ (m' : RateMap) (u i : String) (t : Nat),
      check_rate_limit m' u i t = true ↔
        (¬ t < resetTimeOf m' u ∧ ¬ t < resetTimeOf m' ("ip_" ++ i))) ∧
    password_entered (fun p _ => p) [] cfg m "alice" "pw" "1.1.1.1" 1500 =
      .ok (.denied "rate_limited", m, ["rate_limited"])) := by
  intro m cfg
  exact ⟨rfl, by decide,
    C3_locked_attempt_denied_unchanged (fun p _ => p) [] cfg m "alice" "pw"
      "1.1.1.1" 1500 rfl (Or.inl (by decide))⟩

theorem C4_witness :
    let m : RateMap := [("alice", ⟨3, 400, none⟩), ("ip_2.2.2.2", ⟨7, 300, some 9000⟩)]
    ("alice" : String) ≠ "ip_" ++ "2.2.2.2" ∧
    ((∀ e, findE m "alice" = some e → 500 > e.window_end →
      findE (increment_failed_attempts m "alice" "2.2.2.2" 500).1 "alice"
        = some ⟨1, 500 + 300, none⟩) ∧
    (∀ e, findE m ("ip_" ++ "2.2.2.2") = some e → 500 > e.window_end →
      findE (increment_failed_attempts m "alice" "2.2.2.2" 500).1 ("ip_" ++ "2.2.2.2")
        = some ⟨1, 500 + 300, none⟩) ∧
    (∀ (m' : RateMap) (k : String) (t : Nat),
      entryLocked m' k t = true ↔ t < resetTimeOf m' k)) := by
  intro m
  exact ⟨by decide, C4_window_reset_and_lock_independent m "alice" "2.2.2.2" 500 (by decide)⟩

theorem C5_witness :
    let c : Credentials := [("root", ⟨"h", "s", "admin"⟩), ("bob", ⟨"h2", "s2", "user"⟩)]
    findC c "root" = some ⟨"h", "s", "admin"⟩ ∧
    ("admin" : String) = "admin" ∧
    admin_count c = 1 ∧
    (delete_user c "root" = ((false, "Cannot delete the last admin account."), c) ∧
    (∀ ρ, ρ ≠ "admin" →
      change_role c "root" ρ =
        ((false, "Cannot change role for the last admin account."), c)) ∧
    (∀ v, findC c v = none →
      delete_user c v = ((false, "Username does not exist."), c) ∧
      ∀ ρ, change_role c v ρ = ((false, "Username does not exist."), c))) := by
  intro c
  exact ⟨by decide, rfl, by decide,
    C5_last_admin_protected c "root" ⟨"h", "s", "admin"⟩ (by decide) rfl (by decide)⟩

theorem C6_witness :
    let cfg : IpConfig := ⟨"deny_all", [], []⟩
    let creds : Credentials := [("admin", ⟨"admin", "", "admin"⟩)]
    is_ip_allowed cfg "1.2.3.4" = .ok false ∧
    password_entered (fun p _ => p) creds cfg [] "admin" "admin" "1.2.3.4" 100 =
      .ok (.denied "ip_blocked", [], ["blocked_ip"]) := by
  intro cfg creds
  exact ⟨rfl,
    C6_ip_block_before_rate_limit (fun p _ => p) creds cfg [] "admin" "admin"
      "1.2.3.4" 100 rfl⟩

theorem C10_witness :
    let m : RateMap := (increment_failed_attempts emptyRL "alice" "1.1.1.1" 100).1
    Reach m 100 ∧
    ((∀ k e, findE m k = some e →
      (isIpKey k = false → e.attempts ≤ 5 ∧
        (e.attempts = 5 → e.reset_time.isSome = true)) ∧
      (isIpKey k = true → e.attempts ≤ 10 ∧
        (e.attempts = 10 → e.reset_time.isSome = true))) ∧
    (∀ (u ip : String) (t' : Nat) (e' : RLEntry), u ≠ "ip_" ++ ip →
      findE (increment_failed_attempts m u ip t').1 u = some e' →
      e'.attempts = 5 → e'.reset_time = some (t' + 1800)) ∧
    (∀ (u ip : String) (t' : Nat) (e' : RLEntry), u ≠ "ip_" ++ ip →
      findE (increment_failed_attempts m u ip t').1 ("ip_" ++ ip) = some e' →
      e'.attempts = 10 → e'.reset_time = some (t' + 3600))) := by
  intro m
  have hreach : Reach m 100 :=
    Reach.fail "alice" "1.1.1.1" 100 (Reach.init 100) (le_refl 100)
      (by decide) (by decide)
  exact ⟨hreach, C10_reachable_attempts_bounded hreach⟩

end JackpotMap
